import Mathlib

/-!
Verification of the remote-zip virtual-stream layer (`etoolbox/utils/remote_zip.py`).

The Python source is shallowly embedded: positions and sizes are `Int`
(Python integers are unbounded), byte contents are `List Nat`, the in-place
mutation of buffer/stream objects is explicit state passing, and Python
exceptions are `Except RZError`.
-/

/-- Exception taxonomy of the module.  `outOfBound`, `remoteIOError`,
`rangeNotSupported` and `remoteZip` embed the `RemoteZipError` subclasses of
the source, each carrying its message string; `keyError` and `typeError`
embed the built-in Python exceptions that can escape the embedded code. -/
inductive RZError where
  | outOfBound (msg : String)
  | remoteIOError (msg : String)
  | rangeNotSupported (msg : String)
  | remoteZip (msg : String)
  | keyError
  | typeError
deriving DecidableEq, Repr

/-- Whether an error is (any instance of) the `OutOfBoundError` class. -/
def RZError.isOutOfBound : RZError → Bool
  | .outOfBound _ => true
  | _ => false

/-- Whether an error is (any instance of) the `RemoteIOError` class. -/
def RZError.isRemoteIOError : RZError → Bool
  | .remoteIOError _ => true
  | _ => false

/-- Read of an underlying raw byte source (`io.BytesIO` / raw stream) at a
cursor: a negative count reads everything remaining, otherwise up to `n`
bytes; returns the bytes delivered and the new cursor. -/
def rawRead (data : List Nat) (cursor : Nat) (n : Int) : List Nat × Nat :=
  if n < 0 then (data.drop cursor, data.length)
  else ((data.drop cursor).take n.toNat, min data.length (cursor + n.toNat))

/-- Embedding of `_PartialBuffer`: a window of the remote file.  `data` is the
content of the underlying source (`self.buffer`), `cursor` its own read
position (`self.buffer.tell()`), and `offset`/`size`/`position`/`stream`
embed `_offset`/`_size`/`_position`/`_stream`. -/
structure PartialBuffer where
  data : List Nat
  cursor : Nat
  offset : Int
  size : Int
  position : Int
  stream : Bool
deriving DecidableEq, Repr

/-- Embedding of `_PartialBuffer.tell`. -/
def PartialBuffer.tell (b : PartialBuffer) : Int :=
  b.position

/-- Embedding of `_PartialBuffer.read`: a `size` of `0` means read to the end
of the window; the virtual position becomes `_offset + self.buffer.tell()`. -/
def PartialBuffer.read (b : PartialBuffer) (size : Int) : List Nat × PartialBuffer :=
  let size := if size = 0 then b.offset + b.size - b.position else size
  let r := rawRead b.data b.cursor size
  (r.1, { b with cursor := r.2, position := b.offset + (r.2 : Int) })

/-- The candidate absolute position computed at the top of
`_PartialBuffer.seek` from `offset` and `whence` (2 = end-relative,
0 = absolute, anything else = relative). -/
def seekTarget (b : PartialBuffer) (offset : Int) (whence : Nat) : Int :=
  if whence = 2 then b.size + b.offset + offset
  else if whence = 0 then offset
  else b.position + offset

/-- Embedding of `_PartialBuffer.seek`.  The position field is updated first;
only then is the window bound checked, so on failure the returned buffer
already carries the out-of-window position.  In streaming mode a backward
move relative to the consumed cursor raises, and a forward move skips bytes
by reading them. -/
def PartialBuffer.seek (b : PartialBuffer) (offset : Int) (whence : Nat) :
    PartialBuffer × Except RZError Int :=
  let pos := seekTarget b offset whence
  let b := { b with position := pos }
  let rel := pos - b.offset
  if rel < 0 ∨ b.size ≤ rel then
    (b, .error (.outOfBound "Position out of buffer bound"))
  else if b.stream then
    if rel < (b.cursor : Int) then
      (b, .error (.outOfBound "Negative seek not supported"))
    else
      let skip := rel - (b.cursor : Int)
      if skip = 0 then (b, .ok pos)
      else
        let r := rawRead b.data b.cursor skip
        ({ b with cursor := r.2 }, .ok pos)
  else
    ({ b with cursor := rel.toNat }, .ok pos)

/-- A byte-range request issued to the fetch function: `lo` and optional `hi`
bound (inclusive), and whether the response is streamed. -/
structure FetchReq where
  lo : Int
  hi : Option Int
  stream : Bool
deriving DecidableEq, Repr

/-- Python-dict lookup on the association list built by a dict comprehension:
later bindings overwrite earlier ones. -/
def dictLookup (m : List (Int × Int)) (k : Int) : Option Int :=
  (m.reverse.find? (fun p => p.1 = k)).map (fun p => p.2)

/-- Embedding of the `_RemoteIO` instance state: the current buffer
(`None` before the first end-relative seek), the discovered file size, the
`_seek_succeeded` flag, the installed member map, the `_last_member_pos`
cache and the configured initial tail-fetch size. -/
structure RemoteIOState where
  buffer : Option PartialBuffer
  fileSize : Option Int
  seekSucceeded : Bool
  memberMap : Option (List (Int × Int))
  lastMemberPos : Option Int
  initialBufferSize : Int
deriving DecidableEq, Repr

/-- The fetch-size decision of `_RemoteIO.read` when the preceding seek was
unresolved: an exact member-map hit fetches that member's mapped length (and
records it as last member); otherwise, when the last member position is
truthy and below the current position, the remainder from the current
position to that member's end; with no map installed, the requested size.
Returns `(fetch_size, stream, new last_member_pos)` or the raised error. -/
def readPlan (st : RemoteIOState) (position size : Int) :
    Except RZError (Int × Bool × Option Int) :=
  match st.memberMap with
  | none => .ok (size, false, st.lastMemberPos)
  | some m =>
    match dictLookup m position with
    | some len => .ok (len, true, some position)
    | none =>
      match st.lastMemberPos with
      | some p =>
        if p ≠ 0 ∧ p < position then
          match dictLookup m p with
          | some plen => .ok (plen - (position - p), true, st.lastMemberPos)
          | none => .error .keyError
        else .error (.outOfBound "Attempt to seek outside boundary of current zip member")
      | none => .error (.outOfBound "Attempt to seek outside boundary of current zip member")

/-- Embedding of `_RemoteIO.read`, parameterised by the fetch function.  A
requested size of `0` is first replaced by `file_size - position`.  If the
last seek succeeded the current buffer serves the read; otherwise the range
chosen by `readPlan` is fetched (recording the request issued) and the new
buffer serves it. -/
def RemoteIOState.read (f : FetchReq → PartialBuffer) (st : RemoteIOState) (size0 : Int) :
    Except RZError (List Nat × RemoteIOState × Option FetchReq) :=
  match st.buffer with
  | none => .error .typeError
  | some b =>
    match (if size0 = 0 then
            (match st.fileSize with
             | some fs => Except.ok (fs - b.tell)
             | none => Except.error RZError.typeError)
           else Except.ok size0) with
    | .error e => .error e
    | .ok size =>
      if st.seekSucceeded then
        let r := b.read size
        .ok (r.1, { st with buffer := some r.2 }, none)
      else
        match readPlan st b.tell size with
        | .error e => .error e
        | .ok (fetchSize, stream, last') =>
          let req : FetchReq := ⟨b.tell, some (b.tell + fetchSize - 1), stream⟩
          let r := (f req).read size
          .ok (r.1,
               { st with buffer := some r.2, seekSucceeded := true, lastMemberPos := last' },
               some req)

/-- Embedding of `_RemoteIO.tell`: delegates to the current buffer
(attribute error when there is none). -/
def RemoteIOState.tell (st : RemoteIOState) : Except RZError Int :=
  match st.buffer with
  | none => .error .typeError
  | some b => .ok b.tell

/-- Embedding of `_RemoteIO.seek`: an end-relative seek before the file size
is known first performs the suffix tail fetch and derives the file size; the
buffer seek is then attempted, an `OutOfBoundError` being swallowed —
`_seek_succeeded` is cleared and the (already updated) buffer position is
returned optimistically. -/
def RemoteIOState.seek (f : FetchReq → PartialBuffer) (st : RemoteIOState)
    (offset : Int) (whence : Nat) :
    Except RZError (Int × RemoteIOState × Option FetchReq) :=
  let s :=
    if whence = 2 ∧ st.fileSize = none then
      let req : FetchReq := ⟨-st.initialBufferSize, none, false⟩
      let b := f req
      ({ st with buffer := some b, fileSize := some (b.size + b.tell) }, some req)
    else (st, none)
  match s.1.buffer with
  | none => .error .typeError
  | some b =>
    let r := b.seek offset whence
    match r.2 with
    | .ok pos => .ok (pos, { s.1 with buffer := some r.1, seekSucceeded := true }, s.2)
    | .error _ => .ok (r.1.tell, { s.1 with buffer := some r.1, seekSucceeded := false }, s.2)

/-- Embedding of `_pairwise`: consecutive pairs of a list. -/
def pairwiseL {α : Type} : List α → List (α × α)
  | a :: b :: rest => (a, b) :: pairwiseL (b :: rest)
  | _ => []

/-- Embedding of `RemoteZip._get_position_to_size`: the member header offsets
are sorted, the central-directory start offset is appended, and consecutive
deltas keyed by the earlier offset form the map (as the association list the
dict comprehension enumerates). -/
def getPositionToSize (offsets : List Int) (startDir : Int) : List (Int × Int) :=
  if offsets.length = 0 then []
  else (pairwiseL (offsets.insertionSort (· ≤ ·) ++ [startDir])).map
    (fun p => (p.1, p.2 - p.1))

/-- Embedding of the suffix-range rewrite at the top of `_RemoteFetcher.fetch`:
a suffix request (`lo < 0`, no upper bound) with suffix support disabled is
replaced by the explicit range `(max 0 (size + lo), size - 1)` where `size`
is the result of `get_file_size()`; all other requests pass through. -/
def fetchDataRange (supportSuffixRange : Bool) (fileSize : Int)
    (dataRange : Int × Option Int) : Int × Option Int :=
  if dataRange.1 < 0 ∧ dataRange.2 = none ∧ ¬supportSuffixRange then
    (max 0 (fileSize + dataRange.1), some (fileSize - 1))
  else dataRange

/-- Model of a range-serving origin over a resource `data`: an explicit range
`(lo, some hi)` serves bytes `lo..hi` inclusive; a suffix range
`(lo, none)` with `lo < 0` serves the last `|lo|` bytes (the whole resource
when `|lo|` exceeds its length); `(lo, none)` with `lo ≥ 0` serves the open
tail from `lo`. -/
def serveRange (data : List Nat) (lo : Int) (hi : Option Int) : List Nat :=
  match hi with
  | some h => (data.take (h.toNat + 1)).drop lo.toNat
  | none =>
    if lo < 0 then data.drop (data.length - (-lo).toNat)
    else data.drop lo.toNat

/-- Outcome of one HTTP GET as seen by `_RemoteFetcher._request`: either the
transport layer fails (an `OSError`), or a response arrives with a status
code and an optional `Content-Range` header value. -/
inductive HttpOutcome where
  | transportError (msg : String)
  | response (status : Nat) (contentRange : Option String)
deriving DecidableEq, Repr

/-- A raised Python exception as classified by the `except` clauses of
`_RemoteFetcher.fetch`: an `OSError` (which subsumes HTTP status errors from
`raise_for_status`), or one of the module's own exceptions. -/
inductive PyExc where
  | osError (msg : String)
  | appError (e : RZError)
deriving DecidableEq, Repr

/-- Embedding of `_RemoteFetcher._request`: transport failures and bad
statuses raise `OSError`-class exceptions; a response without a
`Content-Range` header raises `RangeNotSupportedError`; otherwise the header
value is returned. -/
def requestModel (o : HttpOutcome) : Except PyExc String :=
  match o with
  | .transportError msg => .error (.osError msg)
  | .response status contentRange =>
    if 400 ≤ status then .error (.osError "HTTPError")
    else
      match contentRange with
      | none => .error (.appError (.rangeNotSupported "The server doesn't support range requests"))
      | some h => .ok h

/-- The exception translation performed by the `try/except OSError` of
`_RemoteFetcher.fetch` around `_request`: `OSError`s become `RemoteIOError`,
the module's own exceptions propagate unchanged. -/
def fetchRequest (o : HttpOutcome) : Except RZError String :=
  match requestModel o with
  | .ok h => .ok h
  | .error (.osError msg) => .error (.remoteIOError msg)
  | .error (.appError e) => .error e

/-- A fetch function returning an inert empty buffer, used to exercise code
paths whose outcome does not depend on fetched content. -/
def dummyFetch : FetchReq → PartialBuffer :=
  fun _ => ⟨[], 0, 0, 0, 0, false⟩

/-- Modelled from the spec's words, for refinement comparison with
`getPositionToSize`: the member-size map is "built by sorting the member
start offsets, appending the index start offset, and taking consecutive
deltas keyed by the earlier offset of each pair". -/
def memberSizeMapSpec (offsets : List Int) (startDir : Int) : List (Int × Int) :=
  (pairwiseL (offsets.insertionSort (· ≤ ·) ++ [startDir])).map
    (fun p => (p.1, p.2 - p.1))

theorem pairwiseL_delta_sum (a : Int) (l : List Int) :
    ((pairwiseL (a :: l)).map (fun p => p.2 - p.1)).sum = l.getLastD a - a := by
  induction l generalizing a with
  | nil => simp [pairwiseL]
  | cons b t ih =>
    simp only [pairwiseL, List.map_cons, List.sum_cons, ih b, List.getLastD_cons]
    ring

theorem getLastD_append_singleton (l : List Int) (d a : Int) :
    (l ++ [d]).getLastD a = d := by
  induction l generalizing a with
  | nil => rfl
  | cons x t ih =>
    rw [List.cons_append, List.getLastD_cons]
    exact ih x

/-- The unresolved-read branch of `_RemoteIO.read` in equational form: with a
buffer installed, a nonzero requested size and `_seek_succeeded` cleared, the
read is the fetch-and-read determined by `readPlan`. -/
theorem read_unresolved (f : FetchReq → PartialBuffer) (st : RemoteIOState)
    (b : PartialBuffer) (size : Int) (hb : st.buffer = some b)
    (hsz : ¬ size = 0) (hun : st.seekSucceeded = false) :
    RemoteIOState.read f st size =
      match readPlan st b.tell size with
      | .error e => .error e
      | .ok (fetchSize, stream, last') =>
        let req : FetchReq := ⟨b.tell, some (b.tell + fetchSize - 1), stream⟩
        let r := (f req).read size
        .ok (r.1,
             { st with buffer := some r.2, seekSucceeded := true, lastMemberPos := last' },
             some req) := by
  unfold RemoteIOState.read
  simp [hb, hsz, hun]

/-- C2: the member-size map is built by sorting the member start offsets,
appending the index start offset and taking consecutive deltas keyed by the
earlier offset of each pair; on start offsets `[0, 120, 340]` with index
start `600` it is exactly `{0:120, 120:220, 340:260}`. -/
theorem c2_member_map_derivation (offsets : List Int) (startDir : Int)
    (hne : offsets ≠ []) :
    getPositionToSize offsets startDir = memberSizeMapSpec offsets startDir ∧
    getPositionToSize [0, 120, 340] 600 = [(0, 120), (120, 220), (340, 260)] := by
  constructor
  · unfold getPositionToSize memberSizeMapSpec
    rw [if_neg (by simpa using hne)]
  · decide

theorem c2_witness :
    getPositionToSize [0, 120, 340] 600 = memberSizeMapSpec [0, 120, 340] 600 ∧
    getPositionToSize [0, 120, 340] 600 = [(0, 120), (120, 220), (340, 260)] :=
  c2_member_map_derivation [0, 120, 340] 600 (by decide)

/-- C5 counterexample: a streaming-mode window buffer at offset 0 of size 4
whose underlying cursor has consumed 2 bytes; seeking to the in-window
position 0 (backward of the consumed bytes) raises the very `OutOfBoundError`
class used for the generic out-of-bound condition, not a dedicated distinct
condition — only the message differs. -/
theorem c5_counterexample :
    (PartialBuffer.seek ⟨[1, 2, 3, 4], 2, 0, 4, 2, true⟩ 0 0).2 =
      .error (.outOfBound "Negative seek not supported") ∧
    RZError.isOutOfBound (.outOfBound "Negative seek not supported") = true := by
  constructor
  · rfl
  · rfl

/-- C5 (amended): in streaming mode, a seek whose in-window target lies
backward of the stream bytes already consumed raises the out-of-bound
condition with the dedicated message "Negative seek not supported", distinct
from the generic message "Position out of buffer bound" but of the same
exception class. -/
theorem c5_nonrewindable_amended (b : PartialBuffer) (offset : Int) (whence : Nat)
    (hstream : b.stream = true)
    (hin : 0 ≤ seekTarget b offset whence - b.offset ∧
           seekTarget b offset whence - b.offset < b.size)
    (hback : seekTarget b offset whence - b.offset < (b.cursor : Int)) :
    (b.seek offset whence).2 = .error (.outOfBound "Negative seek not supported") ∧
    "Negative seek not supported" ≠ "Position out of buffer bound" := by
  refine ⟨?_, by decide⟩
  unfold PartialBuffer.seek
  have h1 : ¬ (seekTarget b offset whence - b.offset < 0 ∨
      b.size ≤ seekTarget b offset whence - b.offset) := by omega
  have h2 : ¬ (seekTarget b offset whence < b.offset ∨
      b.size ≤ seekTarget b offset whence - b.offset) := by omega
  simp [h1, h2, hstream, hback]

theorem c5_witness :
    (PartialBuffer.seek ⟨[1, 2, 3, 4, 5, 6], 3, 10, 6, 13, true⟩ 11 0).2 =
      .error (.outOfBound "Negative seek not supported") ∧
    "Negative seek not supported" ≠ "Position out of buffer bound" :=
  c5_nonrewindable_amended ⟨[1, 2, 3, 4, 5, 6], 3, 10, 6, 13, true⟩ 11 0 rfl
    (by constructor <;> decide) (by decide)

/-- C6 counterexample: with suffix support disabled, resource size 10 and
requested suffix `-20`, the fetcher requests the clamped range `(0, 9)`, not
the claimed `(size + min, size - 1) = (-10, 9)`. -/
theorem c6_counterexample :
    fetchDataRange false 10 ((-20 : Int), none) = (0, some 9) ∧
    ((0 : Int), (some 9 : Option Int)) ≠ ((10 : Int) + (-20), some ((10 : Int) - 1)) := by
  constructor
  · rfl
  · decide

/-- C6 (amended): a suffix request `(min, None)` with `min < 0` against a
fetcher with suffix support disabled is rewritten, after resolving the total
size, into the explicit range `(max 0 (size + min), size - 1)`, and for a
resource of that size this explicit range serves byte-for-byte the same
content as a native suffix-range fetch. -/
theorem c6_suffix_fallback_amended (data : List Nat) (n : Int) (hn : n < 0) :
    fetchDataRange false (data.length : Int) (n, none) =
      (max 0 ((data.length : Int) + n), some ((data.length : Int) - 1)) ∧
    serveRange data (max 0 ((data.length : Int) + n))
        (some ((data.length : Int) - 1)) =
      serveRange data n none := by
  constructor
  · unfold fetchDataRange
    simp [hn]
  · show (data.take (((data.length : Int) - 1).toNat + 1)).drop
        (max 0 ((data.length : Int) + n)).toNat =
      if n < 0 then data.drop (data.length - (-n).toNat) else data.drop n.toNat
    rw [if_pos hn]
    rw [List.take_of_length_le (by omega)]
    congr 1
    omega

theorem c6_witness :
    fetchDataRange false (([1, 2, 3, 4, 5] : List Nat).length : Int) (-3, none) =
      (max 0 ((([1, 2, 3, 4, 5] : List Nat).length : Int) + -3),
       some ((([1, 2, 3, 4, 5] : List Nat).length : Int) - 1)) ∧
    serveRange [1, 2, 3, 4, 5] (max 0 ((([1, 2, 3, 4, 5] : List Nat).length : Int) + -3))
        (some ((([1, 2, 3, 4, 5] : List Nat).length : Int) - 1)) =
      serveRange [1, 2, 3, 4, 5] (-3) none :=
  c6_suffix_fallback_amended [1, 2, 3, 4, 5] (-3) (by decide)

/-- C8: a ranged fetch whose response lacks the Content-Range header raises
the range-unsupported condition, which is not the uniform I/O-failure class,
rather than being treated as a full-file body; a transport-layer failure is
wrapped into the uniform I/O-failure condition. -/
theorem c8_error_taxonomy :
    (∀ status : Nat, ¬ 400 ≤ status →
      fetchRequest (.response status none) =
        .error (.rangeNotSupported "The server doesn't support range requests") ∧
      RZError.isRemoteIOError
        (.rangeNotSupported "The server doesn't support range requests") = false) ∧
    (∀ msg, fetchRequest (.transportError msg) = .error (.remoteIOError msg) ∧
      RZError.isRemoteIOError (.remoteIOError msg) = true) := by
  constructor
  · intro status h
    refine ⟨?_, rfl⟩
    unfold fetchRequest requestModel
    simp [h]
  · intro msg
    exact ⟨rfl, rfl⟩

theorem c8_witness :
    fetchRequest (.response 206 none) =
      .error (.rangeNotSupported "The server doesn't support range requests") ∧
    RZError.isRemoteIOError
      (.rangeNotSupported "The server doesn't support range requests") = false :=
  c8_error_taxonomy.1 206 (by decide)

/-- C7: for a non-empty set of member start offsets, the values of the
member-size map sum, together with the smallest start offset, to the index
start offset; and neither a successful read nor a successful seek on the
virtual stream changes the installed map. -/
theorem c7_member_map_sum_invariant :
    (∀ (offsets : List Int) (startDir m : Int), offsets.Nodup → offsets ≠ [] →
      m ∈ offsets → (∀ x ∈ offsets, m ≤ x) →
      ((getPositionToSize offsets startDir).map (fun p => p.2)).sum + m = startDir) ∧
    (∀ (f : FetchReq → PartialBuffer) (st : RemoteIOState) (size : Int) out,
      RemoteIOState.read f st size = .ok out → out.2.1.memberMap = st.memberMap) ∧
    (∀ (f : FetchReq → PartialBuffer) (st : RemoteIOState) (offset : Int) (whence : Nat) out,
      RemoteIOState.seek f st offset whence = .ok out → out.2.1.memberMap = st.memberMap) := by
  refine ⟨?_, ?_, ?_⟩
  · intro offsets startDir m _ hne hm hmin
    unfold getPositionToSize
    rw [if_neg (by simpa using hne)]
    have hperm := List.perm_insertionSort (· ≤ ·) offsets
    have hsorted := List.sorted_insertionSort (· ≤ ·) offsets
    obtain ⟨h, t, hs⟩ : ∃ h t, offsets.insertionSort (· ≤ ·) = h :: t := by
      cases hcase : offsets.insertionSort (· ≤ ·) with
      | nil =>
        exfalso
        apply hne
        have hp : List.Perm (offsets.insertionSort (· ≤ ·)) offsets := hperm
        rw [hcase] at hp
        exact hp.symm.eq_nil
      | cons h t => exact ⟨h, t, rfl⟩
    have hhm : h = m := by
      have hmem_h : h ∈ offsets :=
        hperm.subset (hs ▸ List.mem_cons_self h t)
      have hm' : m ∈ h :: t := hs ▸ hperm.symm.subset hm
      have h_le_m : h ≤ m := by
        rcases List.mem_cons.mp hm' with h1 | h1
        · exact le_of_eq h1.symm
        · exact (List.sorted_cons.mp (hs ▸ hsorted)).1 m h1
      exact le_antisymm h_le_m (hmin h hmem_h)
    rw [hs, List.cons_append, List.map_map]
    have hcomp :
        ((fun p : Int × Int => p.2) ∘ fun p : Int × Int => (p.1, p.2 - p.1)) =
          fun p : Int × Int => p.2 - p.1 := rfl
    rw [hcomp, pairwiseL_delta_sum, getLastD_append_singleton, hhm]
    ring
  · intro f st size out hok
    unfold RemoteIOState.read at hok
    cases hb : st.buffer with
    | none => simp [hb] at hok
    | some b =>
      simp only [hb] at hok
      split at hok
      · exact absurd hok (by simp)
      · split at hok
        · cases hok
          rfl
        · split at hok
          · exact absurd hok (by simp)
          · cases hok
            rfl
  · intro f st offset whence out hok
    unfold RemoteIOState.seek at hok
    by_cases hw : whence = 2 ∧ st.fileSize = none
    · rw [if_pos hw] at hok
      simp only at hok
      split at hok
      · cases hok
        rfl
      · cases hok
        rfl
    · rw [if_neg hw] at hok
      simp only at hok
      cases hb : st.buffer with
      | none => simp [hb] at hok
      | some b =>
        simp only [hb] at hok
        split at hok
        · cases hok
          rfl
        · cases hok
          rfl

theorem c7_witness :
    ((getPositionToSize [0, 120, 340] 600).map (fun p => p.2)).sum + 0 = 600 :=
  c7_member_map_sum_invariant.1 [0, 120, 340] 600 0 (by decide) (by decide)
    (by decide) (by decide)


theorem seek_position_eq (b : PartialBuffer) (offset : Int) (whence : Nat) :
    (b.seek offset whence).1.position = seekTarget b offset whence := by
  simp only [PartialBuffer.seek]
  split_ifs <;> rfl

theorem seek_eq_out (b : PartialBuffer) (offset : Int) (whence : Nat)
    (h : seekTarget b offset whence - b.offset < 0 ∨
         b.size ≤ seekTarget b offset whence - b.offset) :
    b.seek offset whence =
      ({ b with position := seekTarget b offset whence },
       .error (.outOfBound "Position out of buffer bound")) := by
  simp only [PartialBuffer.seek]
  rw [if_pos h]

theorem seek_eq_in_nonstream (b : PartialBuffer) (offset : Int) (whence : Nat)
    (hstream : b.stream = false)
    (hin : ¬(seekTarget b offset whence - b.offset < 0 ∨
             b.size ≤ seekTarget b offset whence - b.offset)) :
    b.seek offset whence =
      ({ b with position := seekTarget b offset whence,
                cursor := (seekTarget b offset whence - b.offset).toNat },
       .ok (seekTarget b offset whence)) := by
  simp only [PartialBuffer.seek]
  rw [if_neg hin]
  have hs : ¬(({ b with position := seekTarget b offset whence } :
      PartialBuffer).stream = true) := by
    simp [hstream]
  rw [if_neg hs]

theorem seek_eq_back_stream (b : PartialBuffer) (offset : Int) (whence : Nat)
    (hstream : b.stream = true)
    (hin : ¬(seekTarget b offset whence - b.offset < 0 ∨
             b.size ≤ seekTarget b offset whence - b.offset))
    (hback : seekTarget b offset whence - b.offset < (b.cursor : Int)) :
    b.seek offset whence =
      ({ b with position := seekTarget b offset whence },
       .error (.outOfBound "Negative seek not supported")) := by
  simp only [PartialBuffer.seek]
  rw [if_neg hin]
  have hs : ({ b with position := seekTarget b offset whence } :
      PartialBuffer).stream = true := hstream
  rw [if_pos hs]
  rw [if_pos hback]

theorem seek_snd_fwd_stream (b : PartialBuffer) (offset : Int) (whence : Nat)
    (hstream : b.stream = true)
    (hin : ¬(seekTarget b offset whence - b.offset < 0 ∨
             b.size ≤ seekTarget b offset whence - b.offset))
    (hfwd : ¬(seekTarget b offset whence - b.offset < (b.cursor : Int))) :
    (b.seek offset whence).2 = .ok (seekTarget b offset whence) := by
  simp only [PartialBuffer.seek]
  rw [if_neg hin]
  have hs : ({ b with position := seekTarget b offset whence } :
      PartialBuffer).stream = true := hstream
  rw [if_pos hs]
  rw [if_neg hfwd]
  split_ifs <;> rfl

theorem seek_err_nonstream (b : PartialBuffer) (offset : Int) (whence : Nat)
    (hstream : b.stream = false) :
    ((b.seek offset whence).2 = .error (.outOfBound "Position out of buffer bound")
      ↔ (seekTarget b offset whence - b.offset < 0 ∨
         b.size ≤ seekTarget b offset whence - b.offset)) := by
  by_cases h1 : seekTarget b offset whence - b.offset < 0 ∨
      b.size ≤ seekTarget b offset whence - b.offset
  · rw [seek_eq_out b offset whence h1]
    constructor
    · intro _
      exact h1
    · intro _
      rfl
  · rw [seek_eq_in_nonstream b offset whence hstream h1]
    constructor
    · intro he
      exact absurd he (by simp)
    · intro hd
      exact absurd hd h1

theorem seek_err_stream (b : PartialBuffer) (offset : Int) (whence : Nat)
    (hstream : b.stream = true) :
    ((∃ e, (b.seek offset whence).2 = .error e)
      ↔ (seekTarget b offset whence - b.offset < 0 ∨
         b.size ≤ seekTarget b offset whence - b.offset ∨
         seekTarget b offset whence - b.offset < (b.cursor : Int))) := by
  by_cases h1 : seekTarget b offset whence - b.offset < 0 ∨
      b.size ≤ seekTarget b offset whence - b.offset
  · rw [seek_eq_out b offset whence h1]
    rcases h1 with h1 | h1 <;> simp [h1]
  · by_cases h2 : seekTarget b offset whence - b.offset < (b.cursor : Int)
    · rw [seek_eq_back_stream b offset whence hstream h1 h2]
      simp [h2]
    · rw [seek_snd_fwd_stream b offset whence hstream h1 h2]
      constructor
      · rintro ⟨e, he⟩
        exact absurd he (by simp)
      · intro hd
        exfalso
        rcases hd with hd | hd | hd
        · exact h1 (Or.inl hd)
        · exact h1 (Or.inr hd)
        · exact h2 hd

theorem seek_ok_bounds (b : PartialBuffer) (offset : Int) (whence : Nat) (p : Int)
    (hok : (b.seek offset whence).2 = .ok p) :
    b.offset ≤ (b.seek offset whence).1.position ∧
    (b.seek offset whence).1.position < b.offset + b.size := by
  rw [seek_position_eq]
  by_cases h1 : seekTarget b offset whence - b.offset < 0 ∨
      b.size ≤ seekTarget b offset whence - b.offset
  · rw [seek_eq_out b offset whence h1] at hok
    exact absurd hok (by simp)
  · omega

theorem read_position_bounds (b : PartialBuffer) (n : Int)
    (hlen : (b.data.length : Int) = b.size) :
    b.offset ≤ (b.read n).2.position ∧ (b.read n).2.position ≤ b.offset + b.size := by
  simp only [PartialBuffer.read, rawRead]
  split_ifs <;> simp <;> omega

/-- C4 counterexample: (a) on a buffered window of offset 0, size 2, a
successful read of the whole window leaves the position at `offset + size`,
violating the claimed strict invariant `position < offset + size`; (b) on a
streaming window, a backward in-window seek raises an out-of-bound condition
even though the candidate position lies inside `[offset, offset+size)`,
violating the claimed "raises exactly when outside" equivalence. -/
theorem c4_counterexample :
    ((PartialBuffer.read ⟨[10, 20], 0, 0, 2, 0, false⟩ 2).2.position = 2 ∧
      ¬ ((PartialBuffer.read ⟨[10, 20], 0, 0, 2, 0, false⟩ 2).2.position < 0 + 2)) ∧
    ((PartialBuffer.seek ⟨[7, 7, 7, 7, 7, 7], 3, 10, 6, 13, true⟩ 11 0).2 =
        .error (.outOfBound "Negative seek not supported") ∧
      0 ≤ (11 : Int) - 10 ∧ (11 : Int) - 10 < 6) := by
  refine ⟨⟨rfl, by decide⟩, rfl, by decide, by decide⟩

/-- C4 (amended): the candidate position is computed as claimed for each
whence and is installed unconditionally (never clamped); a buffered seek
raises the out-of-bound condition exactly when the candidate falls outside
`[offset, offset+size)`, while a streaming seek raises exactly when the
candidate falls outside the window or backward of the consumed cursor; a
successful seek leaves `offset ≤ position < offset+size`, and a successful
read (on a window whose data fills its advertised size) leaves
`offset ≤ position ≤ offset+size`, the upper bound being attained when the
window is read to its end. -/
theorem c4_window_seek_amended :
    (∀ (b : PartialBuffer) (offset : Int) (whence : Nat),
      ((b.seek offset whence).1.position =
        (if whence = 2 then b.offset + b.size + offset
         else if whence = 0 then offset
         else b.position + offset)) ∧
      (b.stream = false →
        ((b.seek offset whence).2 = .error (.outOfBound "Position out of buffer bound")
          ↔ (seekTarget b offset whence - b.offset < 0 ∨
             b.size ≤ seekTarget b offset whence - b.offset))) ∧
      (b.stream = true →
        ((∃ e, (b.seek offset whence).2 = .error e)
          ↔ (seekTarget b offset whence - b.offset < 0 ∨
             b.size ≤ seekTarget b offset whence - b.offset ∨
             seekTarget b offset whence - b.offset < (b.cursor : Int)))) ∧
      (∀ p, (b.seek offset whence).2 = .ok p →
        b.offset ≤ (b.seek offset whence).1.position ∧
        (b.seek offset whence).1.position < b.offset + b.size)) ∧
    (∀ (b : PartialBuffer) (n : Int), (b.data.length : Int) = b.size →
      b.offset ≤ (b.read n).2.position ∧ (b.read n).2.position ≤ b.offset + b.size) := by
  refine ⟨fun b offset whence => ⟨?_, ?_, ?_, ?_⟩, read_position_bounds⟩
  · rw [seek_position_eq]
    unfold seekTarget
    split_ifs <;> ring
  · exact seek_err_nonstream b offset whence
  · exact seek_err_stream b offset whence
  · exact seek_ok_bounds b offset whence

theorem c4_witness :
    (0 : Int) ≤ (PartialBuffer.read ⟨[10, 20], 0, 0, 2, 0, false⟩ 2).2.position ∧
    (PartialBuffer.read ⟨[10, 20], 0, 0, 2, 0, false⟩ 2).2.position ≤ 0 + 2 :=
  c4_window_seek_amended.2 ⟨[10, 20], 0, 0, 2, 0, false⟩ 2 (by decide)

/-- C9: when a window-buffer seek raises the out-of-bound condition, the
buffer's position has nevertheless been updated to the computed out-of-window
candidate (seek is not atomic on error), and the virtual stream's deferring
seek reports exactly this position, which its tell subsequently returns. -/
theorem c9_seek_nonatomic_position (b : PartialBuffer) (offset : Int) (whence : Nat)
    (hout : seekTarget b offset whence - b.offset < 0 ∨
            b.size ≤ seekTarget b offset whence - b.offset) :
    (b.seek offset whence).2 = .error (.outOfBound "Position out of buffer bound") ∧
    (b.seek offset whence).1.position = seekTarget b offset whence ∧
    (b.seek offset whence).1.tell = seekTarget b offset whence ∧
    (seekTarget b offset whence ≠ b.position →
      (b.seek offset whence).1.position ≠ b.position) ∧
    (∀ (f : FetchReq → PartialBuffer) (st : RemoteIOState), st.buffer = some b →
      ¬ (whence = 2 ∧ st.fileSize = none) →
      RemoteIOState.seek f st offset whence =
        .ok (seekTarget b offset whence,
             { st with buffer := some (b.seek offset whence).1,
                       seekSucceeded := false }, none) ∧
      RemoteIOState.tell
          { st with buffer := some (b.seek offset whence).1,
                    seekSucceeded := false } =
        .ok (seekTarget b offset whence)) := by
  have h2 : (b.seek offset whence).2 =
      .error (.outOfBound "Position out of buffer bound") := by
    simp only [PartialBuffer.seek]
    rw [if_pos hout]
  have h1 : (b.seek offset whence).1 =
      { b with position := seekTarget b offset whence } := by
    simp only [PartialBuffer.seek]
    rw [if_pos hout]
  refine ⟨h2, by rw [h1], by rw [h1]; rfl, by rw [h1]; intro hne; simpa using hne, ?_⟩
  intro f st hb hw
  constructor
  · unfold RemoteIOState.seek
    rw [if_neg hw]
    simp only [hb, h2, h1]
    rfl
  · unfold RemoteIOState.tell
    simp only [h1]
    rfl

theorem c9_witness :
    RemoteIOState.seek dummyFetch
        ⟨some ⟨[1, 2, 3, 4], 0, 0, 4, 0, false⟩, some 100, true, none, none, 65536⟩ 50 0 =
      .ok (50,
        ⟨some ⟨[1, 2, 3, 4], 0, 0, 4, 50, false⟩, some 100, false, none, none, 65536⟩,
        none) ∧
    RemoteIOState.tell
        ⟨some ⟨[1, 2, 3, 4], 0, 0, 4, 50, false⟩, some 100, false, none, none, 65536⟩ =
      .ok 50 :=
  (c9_seek_nonatomic_position ⟨[1, 2, 3, 4], 0, 0, 4, 0, false⟩ 50 0 (by decide)).2.2.2.2
    dummyFetch ⟨some ⟨[1, 2, 3, 4], 0, 0, 4, 0, false⟩, some 100, true, none, none, 65536⟩
    rfl (by decide)

theorem readPlan_none (st : RemoteIOState) (position size : Int)
    (hm : st.memberMap = none) :
    readPlan st position size = .ok (size, false, st.lastMemberPos) := by
  simp [readPlan, hm]

theorem readPlan_hit (st : RemoteIOState) (position size : Int) (m : List (Int × Int))
    (len : Int) (hm : st.memberMap = some m)
    (hl : dictLookup m position = some len) :
    readPlan st position size = .ok (len, true, some position) := by
  simp [readPlan, hm, hl]

theorem readPlan_cont (st : RemoteIOState) (position size : Int) (m : List (Int × Int))
    (p plen : Int) (hm : st.memberMap = some m)
    (hmiss : dictLookup m position = none) (hlast : st.lastMemberPos = some p)
    (hp : p ≠ 0) (hlt : p < position) (hpl : dictLookup m p = some plen) :
    readPlan st position size = .ok (plen - (position - p), true, some p) := by
  simp [readPlan, hm, hmiss, hlast, hp, hlt, hpl]

theorem readPlan_noRecovery (st : RemoteIOState) (position size : Int)
    (m : List (Int × Int)) (hm : st.memberMap = some m)
    (hmiss : dictLookup m position = none)
    (hno : ¬ ∃ p, st.lastMemberPos = some p ∧ p ≠ 0 ∧ p < position) :
    readPlan st position size =
      .error (.outOfBound "Attempt to seek outside boundary of current zip member") := by
  cases hlast : st.lastMemberPos with
  | none => simp [readPlan, hm, hmiss, hlast]
  | some p =>
    have hcond : ¬ (p ≠ 0 ∧ p < position) := by
      intro hc
      exact hno ⟨p, hlast, hc.1, hc.2⟩
    simp [readPlan, hm, hmiss, hlast, hcond]

theorem read_unresolved_ok (f : FetchReq → PartialBuffer) (st : RemoteIOState)
    (b : PartialBuffer) (size fetchSize : Int) (stream : Bool) (last' : Option Int)
    (hb : st.buffer = some b) (hsz : ¬ size = 0) (hun : st.seekSucceeded = false)
    (hplan : readPlan st b.tell size = .ok (fetchSize, stream, last')) :
    RemoteIOState.read f st size =
      .ok (((f ⟨b.tell, some (b.tell + fetchSize - 1), stream⟩).read size).1,
           { st with
               buffer := some ((f ⟨b.tell, some (b.tell + fetchSize - 1), stream⟩).read size).2,
               seekSucceeded := true, lastMemberPos := last' },
           some ⟨b.tell, some (b.tell + fetchSize - 1), stream⟩) := by
  rw [read_unresolved f st b size hb hsz hun, hplan]

theorem read_unresolved_err (f : FetchReq → PartialBuffer) (st : RemoteIOState)
    (b : PartialBuffer) (size : Int) (e : RZError)
    (hb : st.buffer = some b) (hsz : ¬ size = 0) (hun : st.seekSucceeded = false)
    (hplan : readPlan st b.tell size = .error e) :
    RemoteIOState.read f st size = .error e := by
  rw [read_unresolved f st b size hb hsz hun, hplan]

/-- C1 counterexample: member map `{0: 10}` installed, last member fetched at
absolute offset 0, current position 5 — the position is not a map key but
falls inside the window `[0, 10)` of the last member, so the claim's case (2)
demands a continuation fetch of `10 - 5 = 5` bytes; the code instead raises
the out-of-bound condition, because the truthiness guard on the last-member
offset rejects `0`. -/
theorem c1_counterexample :
    dictLookup [((0 : Int), (10 : Int))] 5 = none ∧
    (0 : Int) ≤ (5 : Int) - 0 ∧ (5 : Int) - 0 < 10 ∧
    RemoteIOState.read dummyFetch
        ⟨some ⟨[], 0, 0, 100, 5, false⟩, some 100, false, some [(0, 10)], some 0, 65536⟩ 3 =
      .error (.outOfBound "Attempt to seek outside boundary of current zip member") := by
  refine ⟨rfl, by decide, by decide, rfl⟩

/-- C1 (amended): on an unresolved read of a positive size, the byte range
fetched is chosen by this priority order: (1) an exact hit of the current
position in the member map fetches exactly that member's mapped length;
(2) otherwise, when the recorded last-member start is nonzero and strictly
below the current position, exactly that member's known end minus the
position is fetched (with no check against the member's upper end);
(3) otherwise, with no member map installed, exactly the requested size is
fetched; and when none of these applies the read raises the out-of-bound
condition without fetching. -/
theorem c1_read_fetch_priority (f : FetchReq → PartialBuffer) (st : RemoteIOState)
    (b : PartialBuffer) (size : Int)
    (hb : st.buffer = some b) (hsz : 0 < size) (hun : st.seekSucceeded = false) :
    (∀ m len, st.memberMap = some m → dictLookup m b.tell = some len →
      ∃ c st', RemoteIOState.read f st size =
        .ok (c, st', some ⟨b.tell, some (b.tell + len - 1), true⟩)) ∧
    (∀ m p plen, st.memberMap = some m → dictLookup m b.tell = none →
      st.lastMemberPos = some p → p ≠ 0 → p < b.tell → dictLookup m p = some plen →
      ∃ c st', RemoteIOState.read f st size =
        .ok (c, st', some ⟨b.tell, some (b.tell + (plen - (b.tell - p)) - 1), true⟩)) ∧
    (st.memberMap = none →
      ∃ c st', RemoteIOState.read f st size =
        .ok (c, st', some ⟨b.tell, some (b.tell + size - 1), false⟩)) ∧
    (∀ m, st.memberMap = some m → dictLookup m b.tell = none →
      (¬ ∃ p, st.lastMemberPos = some p ∧ p ≠ 0 ∧ p < b.tell) →
      RemoteIOState.read f st size =
        .error (.outOfBound "Attempt to seek outside boundary of current zip member")) := by
  have hsz' : ¬ size = 0 := by omega
  refine ⟨?_, ?_, ?_, ?_⟩
  · intro m len hm hl
    exact ⟨_, _, read_unresolved_ok f st b size len true (some b.tell) hb hsz' hun
      (readPlan_hit st b.tell size m len hm hl)⟩
  · intro m p plen hm hmiss hlast hp hlt hpl
    exact ⟨_, _, read_unresolved_ok f st b size (plen - (b.tell - p)) true (some p)
      hb hsz' hun (readPlan_cont st b.tell size m p plen hm hmiss hlast hp hlt hpl)⟩
  · intro hm
    exact ⟨_, _, read_unresolved_ok f st b size size false st.lastMemberPos hb hsz' hun
      (readPlan_none st b.tell size hm)⟩
  · intro m hm hmiss hguard
    exact read_unresolved_err f st b size _ hb hsz' hun
      (readPlan_noRecovery st b.tell size m hm hmiss hguard)

theorem c1_witness :
    ∃ c st', RemoteIOState.read dummyFetch
        ⟨some ⟨[], 0, 0, 100, 5, false⟩, some 100, false, some [(5, 10)], none, 65536⟩ 3 =
      .ok (c, st', some ⟨5, some (5 + 10 - 1), true⟩) :=
  (c1_read_fetch_priority dummyFetch
      ⟨some ⟨[], 0, 0, 100, 5, false⟩, some 100, false, some [(5, 10)], none, 65536⟩
      ⟨[], 0, 0, 100, 5, false⟩ 3 rfl (by decide) rfl).1
    [(5, 10)] 10 rfl (by decide)

/-- C10: on an unresolved read in optimized mode whose position misses the
member map, the continuation path is taken only when the recorded last-member
start is present, nonzero and strictly below the current position; in
particular a last member recorded at absolute offset 0 always makes such a
read raise the out-of-bound condition. -/
theorem c10_continuation_guard (f : FetchReq → PartialBuffer) (st : RemoteIOState)
    (b : PartialBuffer) (m : List (Int × Int)) (size : Int)
    (hb : st.buffer = some b) (hun : st.seekSucceeded = false) (hsz : 0 < size)
    (hm : st.memberMap = some m) (hmiss : dictLookup m b.tell = none) :
    (∀ out, RemoteIOState.read f st size = .ok out →
      ∃ p, st.lastMemberPos = some p ∧ p ≠ 0 ∧ p < b.tell) ∧
    (st.lastMemberPos = some 0 →
      RemoteIOState.read f st size =
        .error (.outOfBound "Attempt to seek outside boundary of current zip member")) := by
  have hsz' : ¬ size = 0 := by omega
  constructor
  · intro out hok
    by_contra hno
    have hr := read_unresolved_err f st b size _ hb hsz' hun
      (readPlan_noRecovery st b.tell size m hm hmiss hno)
    rw [hr] at hok
    exact absurd hok (by simp)
  · intro hlast
    apply read_unresolved_err f st b size _ hb hsz' hun
    apply readPlan_noRecovery st b.tell size m hm hmiss
    rintro ⟨p, hp, hne, _⟩
    rw [hlast] at hp
    cases hp
    exact hne rfl

theorem c10_witness :
    RemoteIOState.read dummyFetch
        ⟨some ⟨[], 0, 0, 100, 5, false⟩, some 100, false, some [(0, 10)], some 0, 65536⟩ 7 =
      .error (.outOfBound "Attempt to seek outside boundary of current zip member") :=
  (c10_continuation_guard dummyFetch
      ⟨some ⟨[], 0, 0, 100, 5, false⟩, some 100, false, some [(0, 10)], some 0, 65536⟩
      ⟨[], 0, 0, 100, 5, false⟩ [(0, 10)] 7 rfl rfl (by decide) rfl (by decide)).2 rfl

/-- C3: a seek whose target lies outside the current window does not raise —
it returns the optimistic target position and clears the resolution flag —
and an unresolved read raises (the out-of-bound condition, and nothing else)
exactly when a member map is installed, the position misses it, and the
last-member continuation guard fails, i.e. only when no recovery path
(map hit, continuation, bootstrap fetch) applies. -/
theorem c3_deferred_out_of_bound :
    (∀ (f : FetchReq → PartialBuffer) (st : RemoteIOState) (b : PartialBuffer)
        (offset : Int) (whence : Nat),
      st.buffer = some b → st.fileSize ≠ none →
      (seekTarget b offset whence - b.offset < 0 ∨
       b.size ≤ seekTarget b offset whence - b.offset) →
      ∃ st', RemoteIOState.seek f st offset whence =
          .ok (seekTarget b offset whence, st', none) ∧
        st'.seekSucceeded = false) ∧
    (∀ (f : FetchReq → PartialBuffer) (st : RemoteIOState) (b : PartialBuffer)
        (size : Int),
      st.buffer = some b → st.seekSucceeded = false → 0 < size →
      (∀ m p, st.memberMap = some m → st.lastMemberPos = some p →
        (dictLookup m p).isSome) →
      (((∃ e, RemoteIOState.read f st size = .error e) ↔
        (∃ m, st.memberMap = some m ∧ dictLookup m b.tell = none ∧
          ¬ ∃ p, st.lastMemberPos = some p ∧ p ≠ 0 ∧ p < b.tell)) ∧
       (∀ e, RemoteIOState.read f st size = .error e →
         e = .outOfBound "Attempt to seek outside boundary of current zip member"))) := by
  constructor
  · intro f st b offset whence hb hfs hout
    have h2 : (b.seek offset whence).2 =
        .error (.outOfBound "Position out of buffer bound") := by
      rw [seek_eq_out b offset whence hout]
    have h1 : (b.seek offset whence).1 =
        { b with position := seekTarget b offset whence } := by
      rw [seek_eq_out b offset whence hout]
    have heq : RemoteIOState.seek f st offset whence =
        .ok (seekTarget b offset whence,
             { st with buffer := some (b.seek offset whence).1,
                       seekSucceeded := false }, none) := by
      unfold RemoteIOState.seek
      rw [if_neg (fun hw => hfs hw.2)]
      simp only [hb, h2, h1]
      rfl
    exact ⟨_, heq, rfl⟩
  · intro f st b size hb hun hsz hkey
    have hsz' : ¬ size = 0 := by omega
    constructor
    · constructor
      · rintro ⟨e, he⟩
        cases hm : st.memberMap with
        | none =>
          exfalso
          have hr := read_unresolved_ok f st b size size false st.lastMemberPos hb hsz'
            hun (readPlan_none st b.tell size hm)
          rw [hr] at he
          exact absurd he (by simp)
        | some m =>
          cases hl : dictLookup m b.tell with
          | some len =>
            exfalso
            have hr := read_unresolved_ok f st b size len true (some b.tell) hb hsz' hun
              (readPlan_hit st b.tell size m len hm hl)
            rw [hr] at he
            exact absurd he (by simp)
          | none =>
            refine ⟨m, rfl, hl, ?_⟩
            rintro ⟨p, hp, hne, hlt⟩
            obtain ⟨plen, hpl⟩ := Option.isSome_iff_exists.mp (hkey m p hm hp)
            have hr := read_unresolved_ok f st b size (plen - (b.tell - p)) true (some p)
              hb hsz' hun (readPlan_cont st b.tell size m p plen hm hl hp hne hlt hpl)
            rw [hr] at he
            exact absurd he (by simp)
      · rintro ⟨m, hm, hl, hno⟩
        exact ⟨_, read_unresolved_err f st b size _ hb hsz' hun
          (readPlan_noRecovery st b.tell size m hm hl hno)⟩
    · intro e he
      cases hm : st.memberMap with
      | none =>
        exfalso
        have hr := read_unresolved_ok f st b size size false st.lastMemberPos hb hsz' hun
          (readPlan_none st b.tell size hm)
        rw [hr] at he
        exact absurd he (by simp)
      | some m =>
        cases hl : dictLookup m b.tell with
        | some len =>
          exfalso
          have hr := read_unresolved_ok f st b size len true (some b.tell) hb hsz' hun
            (readPlan_hit st b.tell size m len hm hl)
          rw [hr] at he
          exact absurd he (by simp)
        | none =>
          by_cases hg : ∃ p, st.lastMemberPos = some p ∧ p ≠ 0 ∧ p < b.tell
          · exfalso
            obtain ⟨p, hp, hne, hlt⟩ := hg
            obtain ⟨plen, hpl⟩ := Option.isSome_iff_exists.mp (hkey m p hm hp)
            have hr := read_unresolved_ok f st b size (plen - (b.tell - p)) true (some p)
              hb hsz' hun (readPlan_cont st b.tell size m p plen hm hl hp hne hlt hpl)
            rw [hr] at he
            exact absurd he (by simp)
          · have hr := read_unresolved_err f st b size _ hb hsz' hun
              (readPlan_noRecovery st b.tell size m hm hl hg)
            rw [hr] at he
            exact (Except.error.inj he).symm

theorem c3_witness :
    (∃ st', RemoteIOState.seek dummyFetch
          ⟨some ⟨[1, 2, 3, 4], 0, 0, 4, 0, false⟩, some 100, true, some [(0, 10)],
            none, 65536⟩ 50 0 =
        .ok (seekTarget ⟨[1, 2, 3, 4], 0, 0, 4, 0, false⟩ 50 0, st', none) ∧
      st'.seekSucceeded = false) ∧
    (((∃ e, RemoteIOState.read dummyFetch
          ⟨some ⟨[], 0, 0, 100, 5, false⟩, some 100, false, some [(0, 10)],
            some 0, 65536⟩ 3 = .error e) ↔
      (∃ m, (some [((0 : Int), (10 : Int))] : Option (List (Int × Int))) = some m ∧
        dictLookup m (PartialBuffer.tell ⟨[], 0, 0, 100, 5, false⟩) = none ∧
        ¬ ∃ p, (some (0 : Int) : Option Int) = some p ∧ p ≠ 0 ∧
          p < PartialBuffer.tell ⟨[], 0, 0, 100, 5, false⟩)) ∧
     (∀ e, RemoteIOState.read dummyFetch
          ⟨some ⟨[], 0, 0, 100, 5, false⟩, some 100, false, some [(0, 10)],
            some 0, 65536⟩ 3 = .error e →
       e = .outOfBound "Attempt to seek outside boundary of current zip member")) :=
  ⟨c3_deferred_out_of_bound.1 dummyFetch
      ⟨some ⟨[1, 2, 3, 4], 0, 0, 4, 0, false⟩, some 100, true, some [(0, 10)], none, 65536⟩
      ⟨[1, 2, 3, 4], 0, 0, 4, 0, false⟩ 50 0 rfl (by decide) (by decide),
   c3_deferred_out_of_bound.2 dummyFetch
      ⟨some ⟨[], 0, 0, 100, 5, false⟩, some 100, false, some [(0, 10)], some 0, 65536⟩
      ⟨[], 0, 0, 100, 5, false⟩ 3 rfl rfl (by decide)
      (by rintro m p hm hp; cases hm; cases hp; decide)⟩
